import Mathlib

/-!
Verification of the Horus process lifecycle supervisor
(`src/processManager.js`, `src/utils/portChecker.js`, `src/utils/pathResolver.js`)
against its natural-language specification.

The JavaScript source is shallowly embedded: pure decision logic becomes Lean
functions, the event-driven readiness race and the stop/registry machinery
become explicit state machines whose events model the Node.js event-loop
callbacks, and thrown errors become `Except` values.
-/

namespace Horus

/-! ## String scanning (JS `String.prototype.includes`)

`checkReady` in `DevServerManager.start` scans each stdout chunk for fixed
framework banners via `output.includes(...)`. -/

/-- `isPre pat hay` is true when `pat` occurs at the start of `hay`
(character-wise; JS strings compared by code units, embedded as `Char`). -/
def isPre : List Char → List Char → Bool
  | [], _ => true
  | _ :: _, [] => false
  | a :: ps, b :: hs => a == b && isPre ps hs

/-- `hasSubList pat hay` is true when `pat` occurs contiguously anywhere in
`hay`: the embedding of JS `hay.includes(pat)`. -/
def hasSubList (pat : List Char) : List Char → Bool
  | [] => isPre pat []
  | h :: t => isPre pat (h :: t) || hasSubList pat t

/-- JS `hay.includes(pat)` on strings. -/
def strContains (hay pat : String) : Bool :=
  hasSubList pat.data hay.data

/-- The `checkReady` stdout scan of `DevServerManager.start` (processManager.js
lines 158-169): a chunk signals readiness when it contains the Next.js, CRA or
Vite banner (the Vite banner mentions the resolved port). -/
def isReadyOutput (port : Nat) (output : String) : Bool :=
  strContains output "ready - started server on" ||
  strContains output "Compiled successfully" ||
  strContains output ("Local:   http://localhost:" ++ toString port)

/-! ## Package manager detection (`DevServerManager.detectPackageManager`) -/

/-- The facts about a project directory that `detectPackageManager` consults:
which lock files are present, and whether `package.json` could be read and
parsed (`none` = read/parse error) and, if so, whether it declares a
`scripts.dev` entry. -/
structure ProjectDir where
  hasPnpmLock : Bool
  hasYarnLock : Bool
  hasPackageLock : Bool
  packageJson : Option Bool
deriving DecidableEq

/-- `DevServerManager.detectPackageManager` (processManager.js lines 16-71):
lock-file precedence pnpm-lock.yaml → yarn.lock → package-lock.json; with no
lock file, a readable `package.json` with a `scripts.dev` entry returns npm;
every remaining path (no dev script, unreadable manifest, or any error) falls
through to the npm default. -/
def detectPackageManager (d : ProjectDir) : String :=
  if d.hasPnpmLock then "pnpm"
  else if d.hasYarnLock then "yarn"
  else if d.hasPackageLock then "npm"
  else
    match d.packageJson with
    | some true => "npm"
    | some false => "npm"
    | none => "npm"

/-! ## Port scanning (`src/utils/portChecker.js` and the manager's wrapper) -/

/-- Errors surfaced by the start pipeline. `jsReferenceError` models the
JavaScript `ReferenceError` thrown when an identifier is not in scope. -/
inductive StartErr where
  | invalidProject (msg : String)
  | portExhausted
  | jsReferenceError
deriving DecidableEq

/-- The loop body of portChecker.js `findAvailablePort` (lines 251-260):
probe ports upward from `port`, `fuel` many of them, returning the first
available one; `portExhausted` models the thrown
`No available ports found in range` error. `avail` is the point-in-time
availability oracle (`isPortAvailable`: bindable ⇒ true, `EADDRINUSE` or any
other bind error ⇒ false). -/
def scanPorts (avail : Nat → Bool) : Nat → Nat → Except StartErr Nat
  | _, 0 => .error .portExhausted
  | port, fuel + 1 =>
    if avail port then .ok port else scanPorts avail (port + 1) fuel

/-- portChecker.js `findAvailablePort(startPort, endPort)`: scans the inclusive
range `[startPort, endPort]` in ascending order (the `for` loop runs
`endPort + 1 - startPort` iterations; zero when `startPort > endPort`). -/
def findAvailablePortChecker (avail : Nat → Bool) (startPort endPort : Nat) :
    Except StartErr Nat :=
  scanPorts avail startPort (endPort + 1 - startPort)

/-- `DevServerManager.findAvailablePort` (processManager.js lines 226-231) as
the code actually executes: if `startPort` is available it is returned;
otherwise the body calls the bare identifier `findAvailablePort(startPort,
startPort + 100)`, but processManager.js imports only `isPortAvailable` and
`waitForPort` from `./utils/portChecker`, and a class method is not in lexical
scope as a bare name — so the call throws `ReferenceError: findAvailablePort
is not defined`. -/
def managerFindAvailablePort (avail : Nat → Bool) (startPort : Nat) :
    Except StartErr Nat :=
  if avail startPort then .ok startPort
  else .error .jsReferenceError

/-- Port availability in the C3 scenario: port 3000 is occupied by an
unrelated listener, every other port (in particular 3001) is free. -/
def availEx : Nat → Bool := fun p => p != 3000

/-! ## Start pipeline up to spawn (`DevServerManager.start`, lines 73-132)

`start` runs sequentially: resolve/validate the project path
(`validateProjectPath`, pathResolver.js lines 29-47), resolve the port,
detect the package manager, compose the environment, spawn, insert the
record into `this.processes`, and only then enter the readiness race. -/

/-- The world a start attempt observes before spawning. -/
structure StartWorld where
  dirExists : Bool
  hasPackageJson : Bool
  avail : Nat → Bool
  dir : ProjectDir

/-- Observable side effects of a start attempt up to (and including) spawn
and registry insertion. -/
structure StartEffects where
  spawned : Bool
  portProbed : Bool
  registryInserted : Bool
deriving DecidableEq

/-- Port resolution in `start` (line 78): `options.port || await
this.findAvailablePort()` — the caller's port when given, otherwise the
manager's (broken) scan starting at the configured default port. -/
def resolveStartPort (w : StartWorld) (optPort : Option Nat) (defaultPort : Nat) :
    Except StartErr Nat :=
  match optPort with
  | some p => .ok p
  | none => managerFindAvailablePort w.avail defaultPort

/-- `DevServerManager.start` up to spawn + registry insertion
(processManager.js lines 73-132): path validation fails fast (pathResolver.js
throws `Directory does not exist` / `No package.json found`) before any port
is probed or process spawned; then the port is resolved, the package manager
detected, the child spawned and the ProcessRecord inserted into
`this.processes` — all before the readiness wait. -/
def startModel (w : StartWorld) (optPort : Option Nat) (defaultPort : Nat) :
    Except StartErr (Nat × String) × StartEffects :=
  if w.dirExists = false then
    (.error (.invalidProject "Directory does not exist"), ⟨false, false, false⟩)
  else if w.hasPackageJson = false then
    (.error (.invalidProject "No package.json found"), ⟨false, false, false⟩)
  else
    match resolveStartPort w optPort defaultPort with
    | .error e => (.error e, ⟨false, optPort.isNone, false⟩)
    | .ok port =>
      (.ok (port, detectPackageManager w.dir), ⟨true, optPort.isNone, true⟩)

/-! ## Child environment composition (`start`, lines 81-87)

`const env = { ...process.env, PORT: port, BROWSER: 'none',
FORCE_COLOR: '1', ...options.env }` — object spread, right-most wins.
Environments are embedded as partial maps `String → Option String`. -/

/-- The three variables the supervisor injects between the inherited
environment and the caller's overrides. -/
def injectedEnv (port : Nat) : String → Option String := fun k =>
  if k = "PORT" then some (toString port)
  else if k = "BROWSER" then some "none"
  else if k = "FORCE_COLOR" then some "1"
  else none

/-- The composed child environment: the caller's `options.env` wins over the
injected variables, which win over the inherited `process.env`. -/
def composeEnv (procEnv : String → Option String) (port : Nat)
    (optEnv : String → Option String) : String → Option String := fun k =>
  match optEnv k with
  | some v => some v
  | none =>
    match injectedEnv port k with
    | some v => some v
    | none => procEnv k

/-! ## The readiness race (`start`, lines 106-183)

After spawn (stdout/stderr piping, the lifetime `close` listener that deletes
the registry entry, and insertion of the ProcessRecord into `this.processes`),
`start` awaits a promise that races: a `setTimeout` startup deadline, the
`checkReady` stdout scan, the child's `exit`/`error` events, and the
`waitForPort` poller (portChecker.js lines 262-287). `cleanup()` (lines
151-156) clears the timeout and removes the child listeners — it does not
touch the `waitForPort` poller or its emitter handlers. JS promise semantics:
the first `resolve`/`reject` settles the promise, later calls are no-ops. -/

/-- Why the readiness promise was rejected. `exitEvent` carries the child's
exit code: the `exit` listener is `onError`, so `reject` receives the exit
code itself as the rejection value. -/
inductive Reason where
  | startupTimeout
  | portTimeout
  | exitEvent (code : Int)
  | errorEvent (e : Nat)
deriving DecidableEq

/-- A promise settlement. -/
inductive Settle where
  | resolved
  | rejected (r : Reason)
deriving DecidableEq

/-- State of one start attempt from the moment the readiness promise is
entered. `deliveries` counts actual promise settlements; `killSent` records
whether the start path ever signalled the child (there is no `kill` call
anywhere in `start`, lines 73-191, so no race event sets it); `closeFired`
records the child's `close` event, whose lifetime listener (lines 118-122) is
the only place the start path deletes the registry entry. -/
structure RaceState where
  settled : Option Settle
  deliveries : Nat
  timerArmed : Bool
  childListeners : Bool
  pollerActive : Bool
  registryHas : Bool
  childRunning : Bool
  killSent : Bool
  closeFired : Bool
deriving DecidableEq

/-- The state on entering the readiness promise: the record is already in
`this.processes` (line 132 precedes the `await` at line 135), the child runs,
the timer is armed, the race listeners are attached and the `waitForPort`
poll loop has been started. -/
def initRace : RaceState :=
  ⟨none, 0, true, true, true, true, true, false, false⟩

/-- JS promise settlement: only the first `resolve`/`reject` takes effect. -/
def trySettle (s : RaceState) (o : Settle) : RaceState :=
  match s.settled with
  | some _ => s
  | none => { s with settled := some o, deliveries := s.deliveries + 1 }

/-- `cleanup()` (lines 151-156): clear the startup timeout and remove the
`exit`/`error`/stdout-`data` listeners. The `waitForPort` poller is not
cancelled and its emitter handlers are not removed. -/
def cleanupRace (s : RaceState) : RaceState :=
  { s with timerArmed := false, childListeners := false }

/-- Event-loop events that can reach one start attempt. -/
inductive REvent where
  | timerFire
  | stdoutData (output : String)
  | childExit (code : Int)
  | childError (e : Nat)
  | pollOccupied
  | pollTimeout
  | childClose (code : Int)
deriving DecidableEq

/-- One event-loop step of the readiness race, faithful to the handlers of
processManager.js lines 118-183 and portChecker.js lines 262-287:

* `timerFire`: the startup `setTimeout` — fires only while armed; handler
  runs `cleanup()` then rejects with the startup-timeout error.
* `stdoutData`: `checkReady` — attached only while the race listeners are;
  on a ready banner runs `onListening` = `cleanup()` then `resolve`.
* `childExit`: the child terminates; the race `exit` listener (`onError`)
  runs `cleanup()` and rejects with the exit code, if still attached.
* `childError`: the `error` listener (`onError`), if still attached.
* `pollOccupied`: a `waitForPort` tick finds the port occupied — the poll
  loop stops, emits `listening`, whose handler (`onListening`, never
  removed) runs `cleanup()` and resolves.
* `pollTimeout`: a tick past the poll deadline — the loop stops, emits
  `timeout`, whose handler runs `cleanup()` and rejects.
* `childClose`: the lifetime `close` listener (lines 118-122) deletes the
  registry entry; the race holds no `close` listener, so the attempt's
  promise is untouched. -/
def rstep (port : Nat) (e : REvent) (s : RaceState) : RaceState :=
  match e with
  | .timerFire =>
    if s.timerArmed then trySettle (cleanupRace s) (.rejected .startupTimeout)
    else s
  | .stdoutData output =>
    if s.childListeners && isReadyOutput port output then
      trySettle (cleanupRace s) .resolved
    else s
  | .childExit code =>
    if s.childListeners then
      trySettle (cleanupRace { s with childRunning := false })
        (.rejected (.exitEvent code))
    else { s with childRunning := false }
  | .childError e =>
    if s.childListeners then
      trySettle (cleanupRace s) (.rejected (.errorEvent e))
    else s
  | .pollOccupied =>
    if s.pollerActive then
      trySettle (cleanupRace { s with pollerActive := false }) .resolved
    else s
  | .pollTimeout =>
    if s.pollerActive then
      trySettle (cleanupRace { s with pollerActive := false })
        (.rejected .portTimeout)
    else s
  | .childClose _ =>
    { s with registryHas := false, childRunning := false, closeFired := true }

/-- Run a sequence of event-loop events over a race state. -/
def rrun (port : Nat) (es : List REvent) (s : RaceState) : RaceState :=
  es.foldl (fun t e => rstep port e t) s

/-! ## Stop, registry and stopAll (`stop`/`stopAll`/`getProcessInfo`,
processManager.js lines 194-239)

`stop(id)` looks the id up in `this.processes` and throws `No process found
with ID` if absent; otherwise it attaches a `close` listener that deletes the
entry and resolves the stop promise, sends `SIGTERM`, and arms a 5000ms
`setTimeout` whose handle is never saved or cleared — at the deadline it
sends `SIGKILL` iff `this.processes.has(processId)` still holds. The child's
control-relevant state is embedded as flags; the record's metadata fields
(port, path, start time) carry no control flow and are omitted. `tracked`
is membership of the id in `this.processes` — the lifetime `close` listener
from `start` (lines 118-122) and the `close` listener from `stop` both delete
it, idempotently. -/

/-- One supervised child as `stop`/`stopAll` see it. -/
structure Proc where
  tracked : Bool
  closed : Bool
  stopping : Bool
  stopResolved : Bool
  sigterm : Bool
  sigkill : Bool
  escTimer : Bool
deriving DecidableEq

/-- Errors thrown by `stop` and `getProcessInfo`. -/
inductive StopErr where
  | notFound
deriving DecidableEq

/-- The synchronous effect of `stop(id)` on a tracked process: attach the
`close` listener (`stopping`), send `SIGTERM`, arm the 5000ms escalation
timer. -/
def stopInitOk (p : Proc) : Proc :=
  { p with stopping := true, sigterm := true, escTimer := true }

/-- `DevServerManager.stop` initiation (lines 194-215): throws `notFound`
when the id is not in `this.processes`, otherwise performs `stopInitOk`. -/
def stopInit (p : Proc) : Except StopErr Proc :=
  if p.tracked then .ok (stopInitOk p) else .error .notFound

/-- `DevServerManager.getProcessInfo` (lines 233-239): throws `notFound` when
the id is not in `this.processes`, otherwise returns the record's projection
(the `process` handle stripped; the projection's payload is irrelevant to the
tracking claims and elided). -/
def getProcInfo (p : Proc) : Except StopErr Unit :=
  if p.tracked then .ok () else .error .notFound

/-- Event-loop events that can reach one supervised child after a stop. -/
inductive PEvent where
  | closeEvt
  | escFire
deriving DecidableEq

/-- One event-loop step for a supervised child:

* `closeEvt`: the child's `close` event (fires once; a second delivery is a
  no-op). The lifetime listener from `start` deletes the registry entry; if a
  stop is in flight its listener also deletes the entry and then resolves the
  stop promise.
* `escFire`: the 5000ms escalation `setTimeout` fires (it is never cleared,
  so it always fires exactly once after a stop); its handler sends `SIGKILL`
  iff the id is still in `this.processes`. -/
def pstep (e : PEvent) (p : Proc) : Proc :=
  match e with
  | .closeEvt =>
    if p.closed then p
    else { p with closed := true, tracked := false,
                  stopResolved := p.stopResolved || p.stopping }
  | .escFire =>
    if p.escTimer then
      { p with escTimer := false, sigkill := p.sigkill || p.tracked }
    else p

/-- Run a sequence of events over one supervised child. -/
def prun (es : List PEvent) (p : Proc) : Proc :=
  es.foldl (fun q e => pstep e q) p

/-- The supervisor's view of all children ever spawned, keyed by process id;
`this.processes` is the set of entries whose `tracked` flag holds. -/
structure MState where
  procs : List (Nat × Proc)
deriving DecidableEq

/-- Whether `this.processes.has(id)` holds. -/
def trackedAtP (m : MState) (id : Nat) : Prop :=
  ∃ ip ∈ m.procs, ip.1 = id ∧ ip.2.tracked = true

instance (m : MState) (id : Nat) : Decidable (trackedAtP m id) :=
  List.decidableBEx _ m.procs

/-- The effect of `stop(id)` initiation on one registry entry. -/
def stopMapF (id : Nat) (ip : Nat × Proc) : Nat × Proc :=
  if ip.1 = id ∧ ip.2.tracked = true then (ip.1, stopInitOk ip.2) else ip

/-- `stop(id)` initiation at the manager level. -/
def mstop (m : MState) (id : Nat) : Except StopErr MState :=
  if trackedAtP m id then .ok ⟨m.procs.map (stopMapF id)⟩
  else .error .notFound

/-- Event-loop events at the manager level, addressed to a process id. -/
inductive MEvent where
  | closeEvt (id : Nat)
  | escFire (id : Nat)
deriving DecidableEq

/-- The id an event is addressed to. -/
def MEvent.target : MEvent → Nat
  | .closeEvt id => id
  | .escFire id => id

/-- The per-process event an MEvent induces. -/
def MEvent.kind : MEvent → PEvent
  | .closeEvt _ => .closeEvt
  | .escFire _ => .escFire

/-- One manager-level event-loop step: the event reaches the listeners of the
process it is addressed to. -/
def mstep (e : MEvent) (m : MState) : MState :=
  ⟨m.procs.map (fun ip =>
    if ip.1 = e.target then (ip.1, pstep e.kind ip.2) else ip)⟩

/-- Run a sequence of manager-level events. -/
def mrun (es : List MEvent) (m : MState) : MState :=
  es.foldl (fun t e => mstep e t) m

/-- The ids `stopAll` iterates: `this.processes.keys()` at call time. -/
def trackedIds (m : MState) : List Nat :=
  (m.procs.filter (fun ip => ip.2.tracked)).map (fun ip => ip.1)

/-- `DevServerManager.stopAll` (lines 218-224): synchronously calls
`this.stop(id)` for every currently tracked id (collecting the promises),
then awaits them all; the initiation phase is this fold. -/
def stopAllE (m : MState) : Except StopErr MState :=
  (trackedIds m).foldlM mstop m

/-- The net synchronous effect of `stopAll`'s initiation phase: every tracked
process is stop-initiated. -/
def stopAllRes (m : MState) : MState :=
  ⟨m.procs.map (fun ip =>
    if ip.2.tracked = true then (ip.1, stopInitOk ip.2) else ip)⟩

/-- The cumulative effect of stop-initiating each id in `ids` on one entry. -/
def stopAllMapF (ids : List Nat) (ip : Nat × Proc) : Nat × Proc :=
  if ip.1 ∈ ids ∧ ip.2.tracked = true then (ip.1, stopInitOk ip.2) else ip

/-- The per-process events a manager-level event list induces on id `i`. -/
def projEvents (i : Nat) (es : List MEvent) : List PEvent :=
  es.filterMap (fun e => if e.target = i then some e.kind else none)

/-! ## Invariants of the readiness race and of stop -/

/-- The promise-settlement invariant of a start attempt: the number of
delivered resolutions matches whether the promise is settled (hence never
exceeds one), and settlement implies `cleanup()` has run — the child
listeners are removed and the startup timer cleared. -/
def RaceInv (s : RaceState) : Prop :=
  s.deliveries = (if s.settled.isSome then 1 else 0) ∧
  ∀ o, s.settled = some o → s.childListeners = false ∧ s.timerArmed = false

/-- The stop-resolution invariant of one supervised child: the stop promise
is resolved only once the `close` event has actually fired and the registry
entry has been deleted. -/
def StopInv (p : Proc) : Prop :=
  p.stopResolved = true → p.closed = true ∧ p.tracked = false

instance (p : Proc) : Decidable (StopInv p) :=
  inferInstanceAs
    (Decidable (p.stopResolved = true → p.closed = true ∧ p.tracked = false))

/-- A freshly tracked process: in the registry, no stop in flight. -/
def freshTracked : Proc := ⟨true, false, false, false, false, false, false⟩

/-- A tracked process that is already mid-exit when `stopAll` is invoked: a
graceful signal was already delivered but its `close` event has not fired. -/
def midExitTracked : Proc := ⟨true, false, false, false, true, false, false⟩

/-- A two-process registry for the stopAll witness; process 2 is mid-exit. -/
def exampleRegistry : MState := ⟨[(1, freshTracked), (2, midExitTracked)]⟩

/-- Event schedule for the stopAll witness: process 2's close arrives first,
process 1's escalation timer fires before its close. -/
def exampleSchedule : List MEvent :=
  [.closeEvt 2, .escFire 1, .closeEvt 1, .escFire 2]

/-! ## Lemmas: promise settlement of the readiness race -/

theorem trySettle_settled_of_some (t : RaceState) (o o' : Settle)
    (h : t.settled = some o) : trySettle t o' = t := by
  unfold trySettle
  rw [h]

theorem raceInv_settle (s : RaceState) (o : Settle)
    (h1 : s.deliveries = (if s.settled.isSome then 1 else 0)) :
    RaceInv (trySettle (cleanupRace s) o) := by
  unfold RaceInv trySettle cleanupRace
  cases ho : s.settled with
  | none =>
    simp only [ho] at h1
    simp [ho, h1]
  | some o' =>
    simp only [ho] at h1
    simp [ho, h1]

theorem raceInv_rstep (port : Nat) (e : REvent) (s : RaceState)
    (h : RaceInv s) : RaceInv (rstep port e s) := by
  obtain ⟨h1, h2⟩ := h
  cases e with
  | timerFire =>
    by_cases ht : s.timerArmed = true
    · simp only [rstep]; rw [if_pos ht]; exact raceInv_settle s _ h1
    · simp only [rstep]; rw [if_neg ht]; exact ⟨h1, h2⟩
  | stdoutData output =>
    by_cases hc : (s.childListeners && isReadyOutput port output) = true
    · simp only [rstep]; rw [if_pos hc]; exact raceInv_settle s _ h1
    · simp only [rstep]; rw [if_neg hc]; exact ⟨h1, h2⟩
  | childExit code =>
    by_cases hc : s.childListeners = true
    · simp only [rstep]; rw [if_pos hc]
      exact raceInv_settle { s with childRunning := false } _ h1
    · simp only [rstep]; rw [if_neg hc]; exact ⟨h1, h2⟩
  | childError e =>
    by_cases hc : s.childListeners = true
    · simp only [rstep]; rw [if_pos hc]; exact raceInv_settle s _ h1
    · simp only [rstep]; rw [if_neg hc]; exact ⟨h1, h2⟩
  | pollOccupied =>
    by_cases hp : s.pollerActive = true
    · simp only [rstep]; rw [if_pos hp]
      exact raceInv_settle { s with pollerActive := false } _ h1
    · simp only [rstep]; rw [if_neg hp]; exact ⟨h1, h2⟩
  | pollTimeout =>
    by_cases hp : s.pollerActive = true
    · simp only [rstep]; rw [if_pos hp]
      exact raceInv_settle { s with pollerActive := false } _ h1
    · simp only [rstep]; rw [if_neg hp]; exact ⟨h1, h2⟩
  | childClose c =>
    simp only [rstep]; exact ⟨h1, h2⟩

theorem raceInv_init : RaceInv initRace := by
  simp [RaceInv, initRace]

theorem raceInv_rrun (port : Nat) (es : List REvent) (s : RaceState)
    (h : RaceInv s) : RaceInv (rrun port es s) := by
  induction es generalizing s with
  | nil => exact h
  | cons e es ih => exact ih (rstep port e s) (raceInv_rstep port e s h)

theorem settled_trySettle_cleanup (s : RaceState) (o o' : Settle)
    (h : s.settled = some o) :
    (trySettle (cleanupRace s) o').settled = some o := by
  rw [trySettle_settled_of_some (cleanupRace s) o o' h]
  exact h

theorem rstep_settled_of_some (port : Nat) (e : REvent) (s : RaceState)
    (o : Settle) (h : s.settled = some o) :
    (rstep port e s).settled = some o := by
  cases e with
  | timerFire =>
    by_cases ht : s.timerArmed = true
    · simp only [rstep]; rw [if_pos ht]
      exact settled_trySettle_cleanup s o _ h
    · simp only [rstep]; rw [if_neg ht]; exact h
  | stdoutData output =>
    by_cases hc : (s.childListeners && isReadyOutput port output) = true
    · simp only [rstep]; rw [if_pos hc]
      exact settled_trySettle_cleanup s o _ h
    · simp only [rstep]; rw [if_neg hc]; exact h
  | childExit code =>
    by_cases hc : s.childListeners = true
    · simp only [rstep]; rw [if_pos hc]
      exact settled_trySettle_cleanup { s with childRunning := false } o _ h
    · simp only [rstep]; rw [if_neg hc]; exact h
  | childError e =>
    by_cases hc : s.childListeners = true
    · simp only [rstep]; rw [if_pos hc]
      exact settled_trySettle_cleanup s o _ h
    · simp only [rstep]; rw [if_neg hc]; exact h
  | pollOccupied =>
    by_cases hp : s.pollerActive = true
    · simp only [rstep]; rw [if_pos hp]
      exact settled_trySettle_cleanup { s with pollerActive := false } o _ h
    · simp only [rstep]; rw [if_neg hp]; exact h
  | pollTimeout =>
    by_cases hp : s.pollerActive = true
    · simp only [rstep]; rw [if_pos hp]
      exact settled_trySettle_cleanup { s with pollerActive := false } o _ h
    · simp only [rstep]; rw [if_neg hp]; exact h
  | childClose c =>
    simp only [rstep]; exact h

theorem rrun_settled_of_some (port : Nat) (es : List REvent) (s : RaceState)
    (o : Settle) (h : s.settled = some o) :
    (rrun port es s).settled = some o := by
  induction es generalizing s with
  | nil => exact h
  | cons e es ih => exact ih (rstep port e s) (rstep_settled_of_some port e s o h)

theorem trySettle_killSent (t : RaceState) (o : Settle) :
    (trySettle t o).killSent = t.killSent := by
  unfold trySettle
  cases ht : t.settled <;> rfl

theorem trySettle_registryHas (t : RaceState) (o : Settle) :
    (trySettle t o).registryHas = t.registryHas := by
  unfold trySettle
  cases ht : t.settled <;> rfl

theorem trySettle_closeFired (t : RaceState) (o : Settle) :
    (trySettle t o).closeFired = t.closeFired := by
  unfold trySettle
  cases ht : t.settled <;> rfl

theorem rstep_killSent (port : Nat) (e : REvent) (s : RaceState) :
    (rstep port e s).killSent = s.killSent := by
  cases e with
  | timerFire =>
    by_cases ht : s.timerArmed = true
    · simp only [rstep]; rw [if_pos ht, trySettle_killSent]; rfl
    · simp only [rstep]; rw [if_neg ht]
  | stdoutData output =>
    by_cases hc : (s.childListeners && isReadyOutput port output) = true
    · simp only [rstep]; rw [if_pos hc, trySettle_killSent]; rfl
    · simp only [rstep]; rw [if_neg hc]
  | childExit code =>
    by_cases hc : s.childListeners = true
    · simp only [rstep]; rw [if_pos hc, trySettle_killSent]; rfl
    · simp only [rstep]; rw [if_neg hc]
  | childError e =>
    by_cases hc : s.childListeners = true
    · simp only [rstep]; rw [if_pos hc, trySettle_killSent]; rfl
    · simp only [rstep]; rw [if_neg hc]
  | pollOccupied =>
    by_cases hp : s.pollerActive = true
    · simp only [rstep]; rw [if_pos hp, trySettle_killSent]; rfl
    · simp only [rstep]; rw [if_neg hp]
  | pollTimeout =>
    by_cases hp : s.pollerActive = true
    · simp only [rstep]; rw [if_pos hp, trySettle_killSent]; rfl
    · simp only [rstep]; rw [if_neg hp]
  | childClose c =>
    simp only [rstep]

theorem rrun_killSent (port : Nat) (es : List REvent) (s : RaceState) :
    (rrun port es s).killSent = s.killSent := by
  induction es generalizing s with
  | nil => rfl
  | cons e es ih => exact (ih (rstep port e s)).trans (rstep_killSent port e s)

theorem rstep_closeInv (port : Nat) (e : REvent) (s : RaceState)
    (h : s.registryHas = false → s.closeFired = true) :
    (rstep port e s).registryHas = false → (rstep port e s).closeFired = true := by
  cases e with
  | timerFire =>
    by_cases ht : s.timerArmed = true
    · simp only [rstep]; rw [if_pos ht, trySettle_registryHas, trySettle_closeFired]
      exact h
    · simp only [rstep]; rw [if_neg ht]; exact h
  | stdoutData output =>
    by_cases hc : (s.childListeners && isReadyOutput port output) = true
    · simp only [rstep]; rw [if_pos hc, trySettle_registryHas, trySettle_closeFired]
      exact h
    · simp only [rstep]; rw [if_neg hc]; exact h
  | childExit code =>
    by_cases hc : s.childListeners = true
    · simp only [rstep]; rw [if_pos hc, trySettle_registryHas, trySettle_closeFired]
      exact h
    · simp only [rstep]; rw [if_neg hc]; exact h
  | childError e =>
    by_cases hc : s.childListeners = true
    · simp only [rstep]; rw [if_pos hc, trySettle_registryHas, trySettle_closeFired]
      exact h
    · simp only [rstep]; rw [if_neg hc]; exact h
  | pollOccupied =>
    by_cases hp : s.pollerActive = true
    · simp only [rstep]; rw [if_pos hp, trySettle_registryHas, trySettle_closeFired]
      exact h
    · simp only [rstep]; rw [if_neg hp]; exact h
  | pollTimeout =>
    by_cases hp : s.pollerActive = true
    · simp only [rstep]; rw [if_pos hp, trySettle_registryHas, trySettle_closeFired]
      exact h
    · simp only [rstep]; rw [if_neg hp]; exact h
  | childClose c =>
    simp only [rstep]
    intro _
    trivial

theorem rrun_closeInv (port : Nat) (es : List REvent) (s : RaceState)
    (h : s.registryHas = false → s.closeFired = true) :
    (rrun port es s).registryHas = false → (rrun port es s).closeFired = true := by
  induction es generalizing s with
  | nil => exact h
  | cons e es ih => exact ih (rstep port e s) (rstep_closeInv port e s h)

/-! ## Claims C1, C2, C7: the readiness race -/

/-- C2, counterexample: the claim states that once any signal settles the
attempt, every other listener and the timer — including the port-occupation
poller — is deactivated. It is false: after a stdout ready-marker settles the
attempt, the `waitForPort` poller is still active (`cleanup()` never cancels
it). -/
theorem settled_race_leaves_poller_active :
    (rstep 3000 (.stdoutData "Compiled successfully") initRace).settled =
      some Settle.resolved ∧
    (rstep 3000 (.stdoutData "Compiled successfully") initRace).pollerActive =
      true := by
  decide

/-- C2 (amended): for every start attempt and every schedule of readiness
signals, at most one resolution is ever delivered; once any signal settles
the attempt the child listeners and the startup timer are deactivated and no
later event changes the resolution — but (unlike the claim) the
port-occupation poller is not deactivated and may keep polling into the
already-settled promise, harmlessly. -/
theorem readiness_settles_at_most_once (port : Nat) (es : List REvent) :
    (rrun port es initRace).deliveries ≤ 1 ∧
    ∀ o, (rrun port es initRace).settled = some o →
      (rrun port es initRace).childListeners = false ∧
      (rrun port es initRace).timerArmed = false ∧
      ∀ more, (rrun port more (rrun port es initRace)).settled = some o := by
  obtain ⟨h1, h2⟩ := raceInv_rrun port es initRace raceInv_init
  refine ⟨?_, ?_⟩
  · rw [h1]
    split <;> decide
  · intro o ho
    obtain ⟨hl, ht⟩ := h2 o ho
    exact ⟨hl, ht, fun more => rrun_settled_of_some port more _ o ho⟩

/-- Witness for `readiness_settles_at_most_once`: a stdout marker settles the
attempt; a simultaneous port-occupation tick delivers no second resolution. -/
theorem readiness_settles_at_most_once_witness :
    (rrun 3000 [.stdoutData "Compiled successfully"] initRace).deliveries ≤ 1 ∧
    (rrun 3000 [.stdoutData "Compiled successfully"] initRace).settled =
      some Settle.resolved ∧
    (rrun 3000 [.pollOccupied]
      (rrun 3000 [.stdoutData "Compiled successfully"] initRace)).settled =
      some Settle.resolved :=
  ⟨(readiness_settles_at_most_once 3000 [.stdoutData "Compiled successfully"]).1,
   by decide,
   ((readiness_settles_at_most_once 3000
      [.stdoutData "Compiled successfully"]).2 Settle.resolved
      (by decide)).2.2 [.pollOccupied]⟩

/-- C1, counterexample: the claim states a failed start terminates the child
and leaves no Registry entry. It is false: when the startup deadline fires,
`start` rejects but the record inserted at spawn is still in the Registry,
the child is still running, and no kill was sent. -/
theorem failed_start_keeps_registry_entry :
    (rstep 3000 .timerFire initRace).settled =
      some (Settle.rejected Reason.startupTimeout) ∧
    (rstep 3000 .timerFire initRace).registryHas = true ∧
    (rstep 3000 .timerFire initRace).childRunning = true ∧
    (rstep 3000 .timerFire initRace).killSent = false := by
  decide

/-- C1 (amended): a failed start performs no cleanup of its own: the start
path never kills the child, the Registry entry (inserted at spawn, before the
readiness wait) is removed only when the child's own `close` event fires, and
in particular after a startup-deadline failure the entry is still present and
the child still running. -/
theorem failed_start_no_cleanup (port : Nat) (es : List REvent) :
    (rrun port es initRace).killSent = false ∧
    ((rrun port es initRace).registryHas = false →
      (rrun port es initRace).closeFired = true) ∧
    (rstep port .timerFire initRace).settled =
      some (Settle.rejected Reason.startupTimeout) ∧
    (rstep port .timerFire initRace).registryHas = true ∧
    (rstep port .timerFire initRace).childRunning = true := by
  refine ⟨?_, ?_, rfl, rfl, rfl⟩
  · rw [rrun_killSent]; rfl
  · exact rrun_closeInv port es initRace (fun h => absurd h (by decide))

/-- Witness for `failed_start_no_cleanup`: after a timeout failure followed by
the child's own close event, the entry is gone exactly because close fired. -/
theorem failed_start_no_cleanup_witness :
    (rrun 3000 [.timerFire, .childClose 0] initRace).killSent = false ∧
    (rrun 3000 [.timerFire, .childClose 0] initRace).registryHas = false ∧
    (rrun 3000 [.timerFire, .childClose 0] initRace).closeFired = true :=
  ⟨(failed_start_no_cleanup 3000 [.timerFire, .childClose 0]).1,
   by decide,
   (failed_start_no_cleanup 3000 [.timerFire, .childClose 0]).2.1 (by decide)⟩

/-- C7 (confirmed): if the child exits with a non-zero code while the race
listeners are still armed and nothing has settled the attempt, `start` fails
at that very step with a rejection carrying the exit code (the `exit` listener
rejects with the code itself), and no later event — in particular not the
startup timer — changes that resolution. -/
theorem early_exit_fails_immediately (port : Nat) (s : RaceState) (c : Int)
    (h1 : s.settled = none) (h2 : s.childListeners = true) (_h3 : c ≠ 0) :
    (rstep port (.childExit c) s).settled =
      some (Settle.rejected (Reason.exitEvent c)) ∧
    ∀ more, (rrun port more (rstep port (.childExit c) s)).settled =
      some (Settle.rejected (Reason.exitEvent c)) := by
  have hset : (rstep port (.childExit c) s).settled =
      some (Settle.rejected (Reason.exitEvent c)) := by
    simp only [rstep]
    rw [if_pos h2]
    unfold trySettle
    rw [show (cleanupRace { s with childRunning := false }).settled = none
        from h1]
  exact ⟨hset, fun more => rrun_settled_of_some port more _ _ hset⟩

/-- Witness for `early_exit_fails_immediately`: exit code 1 straight after
spawn rejects the attempt at once; the later startup-timer firing does not
produce a timeout resolution. -/
theorem early_exit_fails_immediately_witness :
    (rstep 3000 (.childExit 1) initRace).settled =
      some (Settle.rejected (Reason.exitEvent 1)) ∧
    (rrun 3000 [.timerFire] (rstep 3000 (.childExit 1) initRace)).settled =
      some (Settle.rejected (Reason.exitEvent 1)) :=
  ⟨(early_exit_fails_immediately 3000 initRace 1 rfl rfl (by decide)).1,
   (early_exit_fails_immediately 3000 initRace 1 rfl rfl (by decide)).2
     [.timerFire]⟩

/-! ## Lemmas: stop, escalation and the registry -/

theorem stopInitOk_idem (p : Proc) : stopInitOk (stopInitOk p) = stopInitOk p :=
  rfl

theorem pstep_tracked_false (e : PEvent) (p : Proc) (h : p.tracked = false) :
    (pstep e p).tracked = false := by
  cases e with
  | closeEvt =>
    by_cases hc : p.closed = true
    · simp only [pstep]; rw [if_pos hc]; exact h
    · simp only [pstep]; rw [if_neg hc]
  | escFire =>
    by_cases ht : p.escTimer = true
    · simp only [pstep]; rw [if_pos ht]; exact h
    · simp only [pstep]; rw [if_neg ht]; exact h

theorem prun_tracked_false (es : List PEvent) (p : Proc)
    (h : p.tracked = false) : (prun es p).tracked = false := by
  induction es generalizing p with
  | nil => exact h
  | cons e es ih => exact ih (pstep e p) (pstep_tracked_false e p h)

theorem pstep_stopResolved_true (e : PEvent) (p : Proc)
    (h : p.stopResolved = true) : (pstep e p).stopResolved = true := by
  cases e with
  | closeEvt =>
    by_cases hc : p.closed = true
    · simp only [pstep]; rw [if_pos hc]; exact h
    · simp only [pstep]; rw [if_neg hc]; simp [h]
  | escFire =>
    by_cases ht : p.escTimer = true
    · simp only [pstep]; rw [if_pos ht]; exact h
    · simp only [pstep]; rw [if_neg ht]; exact h

theorem prun_stopResolved_true (es : List PEvent) (p : Proc)
    (h : p.stopResolved = true) : (prun es p).stopResolved = true := by
  induction es generalizing p with
  | nil => exact h
  | cons e es ih => exact ih (pstep e p) (pstep_stopResolved_true e p h)

theorem pstep_stopInv (e : PEvent) (p : Proc) (h : StopInv p) :
    StopInv (pstep e p) := by
  cases e with
  | closeEvt =>
    by_cases hc : p.closed = true
    · simp only [pstep]; rw [if_pos hc]; exact h
    · simp only [pstep]; rw [if_neg hc]; intro _; exact ⟨rfl, rfl⟩
  | escFire =>
    by_cases ht : p.escTimer = true
    · simp only [pstep]; rw [if_pos ht]
      intro hr
      exact h hr
    · simp only [pstep]; rw [if_neg ht]; exact h

theorem prun_stopInv (es : List PEvent) (p : Proc) (h : StopInv p) :
    StopInv (prun es p) := by
  induction es generalizing p with
  | nil => exact h
  | cons e es ih => exact ih (pstep e p) (pstep_stopInv e p h)

theorem prun_close_mem (es : List PEvent) (p : Proc)
    (hst : p.stopping = true) (hcl : p.closed = false)
    (hmem : PEvent.closeEvt ∈ es) :
    (prun es p).stopResolved = true ∧ (prun es p).tracked = false := by
  induction es generalizing p with
  | nil => cases hmem
  | cons e es ih =>
    have hclne : ¬(p.closed = true) := by
      rw [hcl]; exact Bool.false_ne_true
    cases e with
    | closeEvt =>
      have hres : (pstep .closeEvt p).stopResolved = true := by
        simp only [pstep]
        rw [if_neg hclne]
        show (p.stopResolved || p.stopping) = true
        rw [hst]
        exact Bool.or_true _
      have htr : (pstep .closeEvt p).tracked = false := by
        simp only [pstep]
        rw [if_neg hclne]
      exact ⟨prun_stopResolved_true es _ hres, prun_tracked_false es _ htr⟩
    | escFire =>
      have hmem' : PEvent.closeEvt ∈ es := by
        rcases List.mem_cons.mp hmem with h | h
        · exact absurd h (by decide)
        · exact h
      have h1 : (pstep .escFire p).stopping = true := by
        by_cases ht : p.escTimer = true
        · simp only [pstep]; rw [if_pos ht]; exact hst
        · simp only [pstep]; rw [if_neg ht]; exact hst
      have h2 : (pstep .escFire p).closed = false := by
        by_cases ht : p.escTimer = true
        · simp only [pstep]; rw [if_pos ht]; exact hcl
        · simp only [pstep]; rw [if_neg ht]; exact hcl
      exact ih (pstep .escFire p) h1 h2 hmem'

/-! ## Claims C4 and C5: stop and the escalation timer -/

/-- C4 (confirmed): `stop(id)` on an untracked id fails with the not-found
error; on a tracked id it initiates termination, and whenever the stop promise
is resolved the process's `close` event has actually fired and
`getProcessInfo(id)` fails with the not-found error — for any schedule of
close and escalation-timer events. -/
theorem stop_resolved_implies_not_found (p : Proc) :
    (p.tracked = false → stopInit p = .error .notFound) ∧
    (p.tracked = true → stopInit p = .ok (stopInitOk p)) ∧
    (p.tracked = true → p.stopResolved = false → ∀ es : List PEvent,
      (prun es (stopInitOk p)).stopResolved = true →
        (prun es (stopInitOk p)).closed = true ∧
        getProcInfo (prun es (stopInitOk p)) = .error .notFound) := by
  refine ⟨?_, ?_, ?_⟩
  · intro h
    unfold stopInit
    rw [if_neg (by rw [h]; exact Bool.false_ne_true)]
  · intro h
    unfold stopInit
    rw [if_pos h]
  · intro _ hres es hfin
    have hinv : StopInv (stopInitOk p) := by
      intro hr
      exact absurd (show p.stopResolved = true from hr) (by rw [hres]; decide)
    obtain ⟨hc, ht⟩ := prun_stopInv es (stopInitOk p) hinv hfin
    refine ⟨hc, ?_⟩
    unfold getProcInfo
    rw [if_neg (by rw [ht]; exact Bool.false_ne_true)]

/-- Witness for `stop_resolved_implies_not_found`: an untracked process makes
`stop` fail; for a fresh tracked process, after its close event the stop is
resolved, the close has fired and `getProcessInfo` fails. -/
theorem stop_resolved_implies_not_found_witness :
    stopInit { freshTracked with tracked := false } = .error .notFound ∧
    stopInit freshTracked = .ok (stopInitOk freshTracked) ∧
    ((prun [.closeEvt] (stopInitOk freshTracked)).closed = true ∧
     getProcInfo (prun [.closeEvt] (stopInitOk freshTracked)) =
       .error .notFound) :=
  ⟨(stop_resolved_implies_not_found { freshTracked with tracked := false }).1
     rfl,
   (stop_resolved_implies_not_found freshTracked).2.1 rfl,
   (stop_resolved_implies_not_found freshTracked).2.2 rfl rfl [.closeEvt]
     (by decide)⟩

/-- C5, counterexample: the claim states the escalation timer is disarmed
when the stop settles. It is false: the `setTimeout` handle is never saved or
cleared, so after the close event resolves the stop the timer is still
armed. -/
theorem stop_escalation_timer_left_armed :
    (pstep .closeEvt (stopInitOk freshTracked)).stopResolved = true ∧
    (pstep .closeEvt (stopInitOk freshTracked)).escTimer = true := by
  decide

/-- C5 (amended): `stop` sends the graceful signal first (no forceful kill at
initiation), and the forceful kill is sent at the escalation deadline iff the
process has not exited by then; but the escalation timer is NOT disarmed when
the stop settles — it stays armed after the close event and fires later — and
only its registry guard prevents a kill after the process has exited. -/
theorem stop_escalation_behavior (p : Proc) (h1 : p.tracked = true)
    (h2 : p.closed = false) (h3 : p.sigkill = false) :
    (stopInitOk p).sigterm = true ∧
    (stopInitOk p).sigkill = false ∧
    (pstep .escFire (stopInitOk p)).sigkill = true ∧
    (pstep .closeEvt (stopInitOk p)).escTimer = true ∧
    (pstep .escFire (pstep .closeEvt (stopInitOk p))).sigkill = false ∧
    (pstep .escFire (pstep .closeEvt (stopInitOk p))).escTimer = false := by
  have hcl : ¬((stopInitOk p).closed = true) := by
    show ¬(p.closed = true)
    rw [h2]; exact Bool.false_ne_true
  have e1 : (pstep .closeEvt (stopInitOk p)).escTimer = true := by
    simp only [pstep]; rw [if_neg hcl]; rfl
  have e2 : (pstep .closeEvt (stopInitOk p)).sigkill = false := by
    simp only [pstep]; rw [if_neg hcl]; exact h3
  have e3 : (pstep .closeEvt (stopInitOk p)).tracked = false := by
    simp only [pstep]; rw [if_neg hcl]
  refine ⟨rfl, h3, ?_, e1, ?_, ?_⟩
  · simp only [pstep]
    rw [if_pos (show (stopInitOk p).escTimer = true from rfl)]
    show (p.sigkill || p.tracked) = true
    rw [h3, h1]
    rfl
  · generalize hX : pstep .closeEvt (stopInitOk p) = X at e1 e2 e3 ⊢
    simp only [pstep]
    rw [if_pos e1]
    show (X.sigkill || X.tracked) = false
    rw [e2, e3]
    rfl
  · generalize hX : pstep .closeEvt (stopInitOk p) = X at e1 ⊢
    simp only [pstep]
    rw [if_pos e1]

/-- Witness for `stop_escalation_behavior` at a fresh tracked process. -/
theorem stop_escalation_behavior_witness :
    (stopInitOk freshTracked).sigterm = true ∧
    (stopInitOk freshTracked).sigkill = false ∧
    (pstep .escFire (stopInitOk freshTracked)).sigkill = true ∧
    (pstep .closeEvt (stopInitOk freshTracked)).escTimer = true ∧
    (pstep .escFire (pstep .closeEvt (stopInitOk freshTracked))).sigkill =
      false ∧
    (pstep .escFire (pstep .closeEvt (stopInitOk freshTracked))).escTimer =
      false :=
  stop_escalation_behavior freshTracked rfl rfl rfl

/-! ## Claims C3, C8, C9, C10 -/

/-- C3 (code bug): in the claim's own scenario — no `options.port`, default
port 3000 occupied by an unrelated listener, 3001 free — the portChecker
function the code plainly means to call would resolve 3001 (and would report
exhaustion when no port in `[3000, 3100]` is free), but the method as written
calls a bare `findAvailablePort` that processManager.js never imports, so the
call throws a `ReferenceError` instead of resolving 3001. -/
theorem findAvailablePort_not_imported :
    availEx 3000 = false ∧
    availEx 3001 = true ∧
    managerFindAvailablePort availEx 3000 = .error .jsReferenceError ∧
    findAvailablePortChecker availEx 3000 3100 = .ok 3001 ∧
    findAvailablePortChecker (fun _ => false) 3000 3100 =
      .error .portExhausted :=
  ⟨rfl, rfl, rfl, rfl, rfl⟩

/-- C8 (confirmed): package manager detection follows the exact fixed
precedence pnpm lock → yarn lock → npm lock → manifest with a dev run-script
(npm) → default npm. -/
theorem detectPackageManager_precedence (d : ProjectDir) :
    (d.hasPnpmLock = true → detectPackageManager d = "pnpm") ∧
    (d.hasPnpmLock = false → d.hasYarnLock = true →
      detectPackageManager d = "yarn") ∧
    (d.hasPnpmLock = false → d.hasYarnLock = false →
      d.hasPackageLock = true → detectPackageManager d = "npm") ∧
    (d.hasPnpmLock = false → d.hasYarnLock = false →
      d.hasPackageLock = false → d.packageJson = some true →
      detectPackageManager d = "npm") ∧
    (d.hasPnpmLock = false → d.hasYarnLock = false →
      d.hasPackageLock = false → d.packageJson ≠ some true →
      detectPackageManager d = "npm") := by
  refine ⟨?_, ?_, ?_, ?_, ?_⟩
  · intro h1
    unfold detectPackageManager
    rw [if_pos h1]
  · intro h1 h2
    unfold detectPackageManager
    rw [if_neg (by simp [h1]), if_pos h2]
  · intro h1 h2 h3
    unfold detectPackageManager
    rw [if_neg (by simp [h1]), if_neg (by simp [h2]), if_pos h3]
  · intro h1 h2 h3 h4
    unfold detectPackageManager
    rw [if_neg (by simp [h1]), if_neg (by simp [h2]), if_neg (by simp [h3]),
      h4]
  · intro h1 h2 h3 _h4
    unfold detectPackageManager
    rw [if_neg (by simp [h1]), if_neg (by simp [h2]), if_neg (by simp [h3])]
    cases hp : d.packageJson with
    | none => rfl
    | some b => cases b <;> rfl

/-- Witness for `detectPackageManager_precedence` on concrete directories,
one per precedence level. -/
theorem detectPackageManager_precedence_witness :
    detectPackageManager ⟨true, true, true, some true⟩ = "pnpm" ∧
    detectPackageManager ⟨false, true, true, some true⟩ = "yarn" ∧
    detectPackageManager ⟨false, false, true, some true⟩ = "npm" ∧
    detectPackageManager ⟨false, false, false, some true⟩ = "npm" ∧
    detectPackageManager ⟨false, false, false, none⟩ = "npm" :=
  ⟨(detectPackageManager_precedence ⟨true, true, true, some true⟩).1 rfl,
   (detectPackageManager_precedence ⟨false, true, true, some true⟩).2.1
     rfl rfl,
   (detectPackageManager_precedence ⟨false, false, true, some true⟩).2.2.1
     rfl rfl rfl,
   (detectPackageManager_precedence ⟨false, false, false, some true⟩).2.2.2.1
     rfl rfl rfl rfl,
   (detectPackageManager_precedence ⟨false, false, false, none⟩).2.2.2.2
     rfl rfl rfl (by decide)⟩

/-- C9 (confirmed): a start on a project path whose directory does not exist,
or which lacks `package.json`, fails with the invalid-project error before
anything else happens: no child is spawned, no port is probed, and no
Registry entry is inserted. -/
theorem invalid_project_fails_before_spawn (w : StartWorld)
    (optPort : Option Nat) (defaultPort : Nat) :
    (w.dirExists = false →
      startModel w optPort defaultPort =
        (.error (.invalidProject "Directory does not exist"),
         ⟨false, false, false⟩)) ∧
    (w.dirExists = true → w.hasPackageJson = false →
      startModel w optPort defaultPort =
        (.error (.invalidProject "No package.json found"),
         ⟨false, false, false⟩)) := by
  constructor
  · intro h
    unfold startModel
    rw [if_pos h]
  · intro h1 h2
    unfold startModel
    rw [if_neg (by simp [h1]), if_pos h2]

/-- Witness for `invalid_project_fails_before_spawn`: a missing directory and
a directory without a manifest, both with no caller-supplied port. -/
theorem invalid_project_fails_before_spawn_witness :
    startModel ⟨false, true, fun _ => true, ⟨false, false, false, none⟩⟩
        none 3000 =
      (.error (.invalidProject "Directory does not exist"),
       ⟨false, false, false⟩) ∧
    startModel ⟨true, false, fun _ => true, ⟨false, false, false, none⟩⟩
        none 3000 =
      (.error (.invalidProject "No package.json found"),
       ⟨false, false, false⟩) :=
  ⟨(invalid_project_fails_before_spawn
      ⟨false, true, fun _ => true, ⟨false, false, false, none⟩⟩ none 3000).1
      rfl,
   (invalid_project_fails_before_spawn
      ⟨true, false, fun _ => true, ⟨false, false, false, none⟩⟩ none 3000).2
      rfl rfl⟩

/-- C10 (confirmed): in the composed child environment, caller-supplied
`options.env` entries win over everything (including the injected PORT,
BROWSER and FORCE_COLOR and the inherited environment); keys absent from
`options.env` see the injected values; all remaining keys see the inherited
environment. -/
theorem composeEnv_priority (procEnv : String → Option String) (port : Nat)
    (optEnv : String → Option String) (k : String) :
    (∀ v, optEnv k = some v → composeEnv procEnv port optEnv k = some v) ∧
    (optEnv k = none → k = "PORT" →
      composeEnv procEnv port optEnv k = some (toString port)) ∧
    (optEnv k = none → k = "BROWSER" →
      composeEnv procEnv port optEnv k = some "none") ∧
    (optEnv k = none → k = "FORCE_COLOR" →
      composeEnv procEnv port optEnv k = some "1") ∧
    (optEnv k = none → k ≠ "PORT" → k ≠ "BROWSER" → k ≠ "FORCE_COLOR" →
      composeEnv procEnv port optEnv k = procEnv k) := by
  refine ⟨?_, ?_, ?_, ?_, ?_⟩
  · intro v h
    unfold composeEnv
    rw [h]
  · intro h hk
    subst hk
    simp [composeEnv, injectedEnv, h]
  · intro h hk
    subst hk
    simp [composeEnv, injectedEnv, h]
  · intro h hk
    subst hk
    simp [composeEnv, injectedEnv, h]
  · intro h h1 h2 h3
    simp [composeEnv, injectedEnv, h, h1, h2, h3]

/-- Witness for `composeEnv_priority`: the caller's PORT override wins; with
no overrides the injected values appear; an untouched inherited variable
passes through. -/
theorem composeEnv_priority_witness :
    composeEnv (fun _ => none) 3000
      (fun k => if k = "PORT" then some "9999" else none) "PORT" =
      some "9999" ∧
    composeEnv (fun _ => none) 3000 (fun _ => none) "PORT" = some "3000" ∧
    composeEnv (fun _ => none) 3000 (fun _ => none) "BROWSER" = some "none" ∧
    composeEnv (fun _ => none) 3000 (fun _ => none) "FORCE_COLOR" =
      some "1" ∧
    composeEnv (fun k => if k = "HOME" then some "/root" else none) 3000
      (fun _ => none) "HOME" = some "/root" :=
  ⟨(composeEnv_priority (fun _ => none) 3000
      (fun k => if k = "PORT" then some "9999" else none) "PORT").1 "9999"
      (by decide),
   (composeEnv_priority (fun _ => none) 3000 (fun _ => none) "PORT").2.1
     rfl rfl,
   (composeEnv_priority (fun _ => none) 3000 (fun _ => none) "BROWSER").2.2.1
     rfl rfl,
   (composeEnv_priority (fun _ => none) 3000 (fun _ => none)
      "FORCE_COLOR").2.2.2.1 rfl rfl,
   ((composeEnv_priority (fun k => if k = "HOME" then some "/root" else none)
      3000 (fun _ => none) "HOME").2.2.2.2 rfl (by decide) (by decide)
      (by decide)).trans (by decide)⟩

/-! ## Lemmas: stopAll -/

theorem bool_eq_false (b : Bool) (h : ¬(b = true)) : b = false := by
  cases b
  · rfl
  · exact absurd rfl h

theorem stopMapF_fst (id : Nat) (ip : Nat × Proc) :
    (stopMapF id ip).1 = ip.1 := by
  unfold stopMapF
  split <;> rfl

theorem stopMapF_tracked (id : Nat) (ip : Nat × Proc) :
    (stopMapF id ip).2.tracked = ip.2.tracked := by
  unfold stopMapF
  split <;> rfl

theorem trackedAtP_stopMap (m : MState) (id id' : Nat) :
    trackedAtP ⟨m.procs.map (stopMapF id)⟩ id' ↔ trackedAtP m id' := by
  unfold trackedAtP
  constructor
  · rintro ⟨jp, hjp, h1, h2⟩
    obtain ⟨ip, hip, hf⟩ := List.mem_map.mp hjp
    subst hf
    rw [stopMapF_fst] at h1
    rw [stopMapF_tracked] at h2
    exact ⟨ip, hip, h1, h2⟩
  · rintro ⟨ip, hip, h1, h2⟩
    refine ⟨stopMapF id ip, List.mem_map.mpr ⟨ip, hip, rfl⟩, ?_, ?_⟩
    · rw [stopMapF_fst]; exact h1
    · rw [stopMapF_tracked]; exact h2

theorem stopMapF_comp (id : Nat) (ids : List Nat) (ip : Nat × Proc) :
    stopAllMapF ids (stopMapF id ip) = stopAllMapF (id :: ids) ip := by
  unfold stopMapF stopAllMapF
  by_cases h1 : ip.1 = id ∧ ip.2.tracked = true
  · rw [if_pos h1]
    by_cases h2 : ip.1 ∈ ids
    · rw [if_pos (show (ip.1, stopInitOk ip.2).1 ∈ ids ∧
          (ip.1, stopInitOk ip.2).2.tracked = true from ⟨h2, h1.2⟩)]
      rw [if_pos (show ip.1 ∈ id :: ids ∧ ip.2.tracked = true from
          ⟨List.mem_cons_of_mem _ h2, h1.2⟩)]
      rfl
    · rw [if_neg (show ¬((ip.1, stopInitOk ip.2).1 ∈ ids ∧
          (ip.1, stopInitOk ip.2).2.tracked = true) from fun hc => h2 hc.1)]
      rw [if_pos (show ip.1 ∈ id :: ids ∧ ip.2.tracked = true from
          ⟨by rw [h1.1]; exact List.mem_cons_self _ _, h1.2⟩)]
  · rw [if_neg h1]
    by_cases ht : ip.2.tracked = true
    · have hne : ip.1 ≠ id := fun he => h1 ⟨he, ht⟩
      by_cases h2 : ip.1 ∈ ids
      · rw [if_pos ⟨h2, ht⟩, if_pos ⟨List.mem_cons_of_mem _ h2, ht⟩]
      · rw [if_neg (fun hc => h2 hc.1),
          if_neg (fun hc => (List.mem_cons.mp hc.1).elim hne h2)]
    · rw [if_neg (fun hc => ht hc.2), if_neg (fun hc => ht hc.2)]

theorem foldlM_mstop_ok (ids : List Nat) (m : MState)
    (h : ∀ id ∈ ids, trackedAtP m id) :
    List.foldlM mstop m ids = .ok ⟨m.procs.map (stopAllMapF ids)⟩ := by
  induction ids generalizing m with
  | nil =>
    cases m with
    | mk l =>
      have hl : l.map (stopAllMapF []) = l := by
        have : ∀ ip : Nat × Proc, stopAllMapF [] ip = ip := by
          intro ip
          unfold stopAllMapF
          rw [if_neg (fun hc => List.not_mem_nil _ hc.1)]
        rw [List.map_congr_left (fun a _ => this a), List.map_id']
      rw [List.foldlM_nil]
      rw [show (⟨(⟨l⟩ : MState).procs.map (stopAllMapF [])⟩ : MState) = ⟨l⟩
          from by rw [show (⟨l⟩ : MState).procs = l from rfl, hl]]
      rfl
  | cons id ids ih =>
    have h0 : trackedAtP m id := h id (List.mem_cons_self _ _)
    rw [List.foldlM_cons]
    rw [show mstop m id = .ok ⟨m.procs.map (stopMapF id)⟩ from by
      unfold mstop; rw [if_pos h0]]
    show List.foldlM mstop ⟨m.procs.map (stopMapF id)⟩ ids = _
    rw [ih ⟨m.procs.map (stopMapF id)⟩ (fun id' hid' =>
      (trackedAtP_stopMap m id id').mpr (h id' (List.mem_cons_of_mem _ hid')))]
    rw [show (⟨m.procs.map (stopMapF id)⟩ : MState).procs =
      m.procs.map (stopMapF id) from rfl]
    rw [List.map_map]
    rw [show stopAllMapF ids ∘ stopMapF id = stopAllMapF (id :: ids) from
      funext (stopMapF_comp id ids)]

theorem trackedAtP_of_mem_trackedIds (m : MState) (id : Nat)
    (h : id ∈ trackedIds m) : trackedAtP m id := by
  unfold trackedIds at h
  obtain ⟨ip, hip, hfst⟩ := List.mem_map.mp h
  have hm := List.mem_filter.mp hip
  exact ⟨ip, hm.1, hfst, hm.2⟩

theorem stopAll_map_eq (m : MState) :
    m.procs.map (stopAllMapF (trackedIds m)) =
      m.procs.map (fun ip =>
        if ip.2.tracked = true then (ip.1, stopInitOk ip.2) else ip) := by
  apply List.map_congr_left
  intro ip hip
  unfold stopAllMapF
  by_cases ht : ip.2.tracked = true
  · rw [if_pos ⟨List.mem_map.mpr
      ⟨ip, List.mem_filter.mpr ⟨hip, ht⟩, rfl⟩, ht⟩, if_pos ht]
  · rw [if_neg (fun hc => ht hc.2), if_neg ht]

theorem stopAllE_ok (m : MState) : stopAllE m = .ok (stopAllRes m) := by
  unfold stopAllE stopAllRes
  rw [foldlM_mstop_ok (trackedIds m) m
    (fun id hid => trackedAtP_of_mem_trackedIds m id hid)]
  rw [stopAll_map_eq m]

theorem projEvents_close_mem (i : Nat) (es : List MEvent)
    (h : MEvent.closeEvt i ∈ es) : PEvent.closeEvt ∈ projEvents i es := by
  unfold projEvents
  refine List.mem_filterMap.mpr ⟨MEvent.closeEvt i, h, ?_⟩
  rw [if_pos (show (MEvent.closeEvt i).target = i from rfl)]
  rfl

theorem projEvents_cons (i : Nat) (e : MEvent) (es : List MEvent) :
    projEvents i (e :: es) =
      (if e.target = i then [e.kind] else []) ++ projEvents i es := by
  unfold projEvents
  rw [List.filterMap_cons]
  by_cases h : e.target = i
  · rw [if_pos h, if_pos h]
    rfl
  · rw [if_neg h, if_neg h]
    rfl

theorem mrun_procs (es : List MEvent) (m : MState) :
    (mrun es m).procs =
      m.procs.map (fun ip => (ip.1, prun (projEvents ip.1 es) ip.2)) := by
  induction es generalizing m with
  | nil =>
    have : ∀ l : List (Nat × Proc),
        l.map (fun ip => (ip.1, prun (projEvents ip.1 []) ip.2)) = l := by
      intro l
      induction l with
      | nil => rfl
      | cons a l ihl =>
        rw [List.map_cons, ihl]
        rfl
    exact (this m.procs).symm
  | cons e es ih =>
    show (mrun es (mstep e m)).procs = _
    rw [ih (mstep e m)]
    rw [show (mstep e m).procs = m.procs.map (fun ip =>
      if ip.1 = e.target then (ip.1, pstep e.kind ip.2) else ip) from rfl]
    rw [List.map_map]
    apply List.map_congr_left
    intro ip _
    show (fun jp : Nat × Proc => (jp.1, prun (projEvents jp.1 es) jp.2))
      (if ip.1 = e.target then (ip.1, pstep e.kind ip.2) else ip) =
      (ip.1, prun (projEvents ip.1 (e :: es)) ip.2)
    by_cases h : ip.1 = e.target
    · rw [if_pos h, projEvents_cons, if_pos h.symm]
      rfl
    · rw [if_neg h, projEvents_cons, if_neg (fun hh => h hh.symm)]
      rfl

theorem mrun_stopAllRes_procs (es : List MEvent) (m : MState) :
    (mrun es (stopAllRes m)).procs =
      m.procs.map (fun ip =>
        if ip.2.tracked = true
        then (ip.1, prun (projEvents ip.1 es) (stopInitOk ip.2))
        else (ip.1, prun (projEvents ip.1 es) ip.2)) := by
  rw [mrun_procs]
  rw [show (stopAllRes m).procs = m.procs.map (fun ip =>
    if ip.2.tracked = true then (ip.1, stopInitOk ip.2) else ip) from rfl]
  rw [List.map_map]
  apply List.map_congr_left
  intro ip _
  show (fun jp : Nat × Proc => (jp.1, prun (projEvents jp.1 es) jp.2))
    (if ip.2.tracked = true then (ip.1, stopInitOk ip.2) else ip) = _
  by_cases ht : ip.2.tracked = true
  · rw [if_pos ht, if_pos ht]
  · rw [if_neg ht, if_neg ht]

/-! ## Claim C6: stopAll -/

/-- C6 (confirmed): on a well-formed registry (unique process ids, tracked
processes not yet closed, stop promises resolved only for already-removed
processes), `stopAll` stop-initiates every tracked process without erroring —
even those already mid-exit — and after any event schedule that delivers
every tracked process's close event, the Registry is empty, every stop
promise that is resolved saw its close event fire first, and every process
tracked at the time of the call has its stop resolved. -/
theorem stopAll_empties_registry (m : MState) (es : List MEvent)
    (hkeys : (m.procs.map Prod.fst).Nodup)
    (hfresh : ∀ ip ∈ m.procs, StopInv ip.2)
    (hclosed : ∀ ip ∈ m.procs, ip.2.tracked = true → ip.2.closed = false)
    (hcover : ∀ ip ∈ m.procs, ip.2.tracked = true →
      MEvent.closeEvt ip.1 ∈ es) :
    stopAllE m = .ok (stopAllRes m) ∧
    (∀ jp ∈ (mrun es (stopAllRes m)).procs, jp.2.tracked = false) ∧
    (∀ jp ∈ (mrun es (stopAllRes m)).procs, jp.2.stopResolved = true →
      jp.2.closed = true) ∧
    (∀ ip ∈ m.procs, ip.2.tracked = true →
      ∀ jp ∈ (mrun es (stopAllRes m)).procs, jp.1 = ip.1 →
        jp.2.stopResolved = true) := by
  refine ⟨stopAllE_ok m, ?_, ?_, ?_⟩
  · intro jp hjp
    rw [mrun_stopAllRes_procs] at hjp
    obtain ⟨ip, hip, hfi⟩ := List.mem_map.mp hjp
    by_cases ht : ip.2.tracked = true
    · rw [if_pos ht] at hfi
      subst hfi
      exact (prun_close_mem (projEvents ip.1 es) (stopInitOk ip.2) rfl
        (hclosed ip hip ht)
        (projEvents_close_mem ip.1 es (hcover ip hip ht))).2
    · rw [if_neg ht] at hfi
      subst hfi
      exact prun_tracked_false _ _ (bool_eq_false _ ht)
  · intro jp hjp
    rw [mrun_stopAllRes_procs] at hjp
    obtain ⟨ip, hip, hfi⟩ := List.mem_map.mp hjp
    by_cases ht : ip.2.tracked = true
    · rw [if_pos ht] at hfi
      subst hfi
      have hsr : ip.2.stopResolved = false := by
        cases hs : ip.2.stopResolved
        · rfl
        · have h2 := (hfresh ip hip hs).2
          rw [h2] at ht
          exact absurd ht (by decide)
      have hinv : StopInv (stopInitOk ip.2) := by
        intro hr
        exact absurd (show ip.2.stopResolved = true from hr)
          (by rw [hsr]; decide)
      intro hres
      exact (prun_stopInv _ _ hinv hres).1
    · rw [if_neg ht] at hfi
      subst hfi
      intro hres
      exact (prun_stopInv _ _ (hfresh ip hip) hres).1
  · intro ip hip ht jp hjp hfst
    rw [mrun_stopAllRes_procs] at hjp
    obtain ⟨ip', hip', hfi⟩ := List.mem_map.mp hjp
    have hj1 : jp.1 = ip'.1 := by
      by_cases ht' : ip'.2.tracked = true
      · rw [if_pos ht'] at hfi; rw [← hfi]
      · rw [if_neg ht'] at hfi; rw [← hfi]
    have heq : ip'.1 = ip.1 := by rw [← hj1, hfst]
    have hip_eq : ip' = ip := List.inj_on_of_nodup_map hkeys hip' hip heq
    subst hip_eq
    rw [if_pos ht] at hfi
    subst hfi
    exact (prun_close_mem (projEvents ip'.1 es) (stopInitOk ip'.2) rfl
      (hclosed ip' hip' ht)
      (projEvents_close_mem ip'.1 es (hcover ip' hip' ht))).1

/-- Witness for `stopAll_empties_registry` on a two-process registry whose
second process is already mid-exit (graceful signal already delivered), with
closes arriving out of order and an escalation firing in between. -/
theorem stopAll_empties_registry_witness :
    ((exampleRegistry.procs.map Prod.fst).Nodup ∧
      ∀ ip ∈ exampleRegistry.procs, ip.2.tracked = true →
        MEvent.closeEvt ip.1 ∈ exampleSchedule) ∧
    stopAllE exampleRegistry = .ok (stopAllRes exampleRegistry) ∧
    (∀ jp ∈ (mrun exampleSchedule (stopAllRes exampleRegistry)).procs,
      jp.2.tracked = false) ∧
    (∀ ip ∈ exampleRegistry.procs, ip.2.tracked = true →
      ∀ jp ∈ (mrun exampleSchedule (stopAllRes exampleRegistry)).procs,
        jp.1 = ip.1 → jp.2.stopResolved = true) :=
  ⟨⟨by decide, by decide⟩,
   (stopAll_empties_registry exampleRegistry exampleSchedule (by decide)
     (by decide) (by decide) (by decide)).1,
   (stopAll_empties_registry exampleRegistry exampleSchedule (by decide)
     (by decide) (by decide) (by decide)).2.1,
   (stopAll_empties_registry exampleRegistry exampleSchedule (by decide)
     (by decide) (by decide) (by decide)).2.2.2⟩

end Horus
